import Mathlib

/-!
Verification development for the GridWorld dynamic-programming notebook
(src/21_reinforcement_learning/01_gridworld_dynamic_programming.ipynb).

The notebook builds a 3 x 4 GridWorld Markov Decision Process (transition
and reward tensors of shape actions x states x states) and solves it with a
hand-written Value Iteration loop and a hand-written Policy Iteration loop.
All numeric computation is embedded over the rationals; arrays become lists,
in-place element assignment becomes List.set, and the unbounded while-loops
become fuel-indexed recursions returning Option.
-/

set_option maxRecDepth 100000
set_option maxHeartbeats 4000000

namespace GridWorld

attribute [local semireducible] Rat.add Rat.mul Rat.inv Rat.sub

/-- Grid dimensions: grid_size = (3, 4). -/
def rows : Nat := 3

/-- Number of grid columns. -/
def cols : Nat := 4

/-- The single unreachable cell, blocked_cell = (1, 1). -/
def blocked_cell : Int × Int := (1, 1)

/-- Per-step reward for non-terminal states, baseline_reward = -0.02. -/
def baseline_reward : ℚ := -(2/100)

/-- Terminal cells with their fixed rewards: (0,3) gives +1 and (1,3) gives -1. -/
def absorbing_cells : List ((Int × Int) × ℚ) := [((0, 3), 1), ((1, 3), -1)]

/-- The four movement actions, in the order used by the notebook. -/
def actions : List Char := ['L', 'U', 'R', 'D']

/-- num_actions = len(actions) = 4. -/
def num_actions : Nat := actions.length

/-- probs = [.1, .8, .1, 0], the outcome noise pattern rotated per action. -/
def probs : List ℚ := [1/10, 8/10, 1/10, 0]

/-- num_states = 3 * 4 = 12. -/
def num_states : Nat := rows * cols

/-- np.ravel_multi_index for the fixed (3, 4) grid: row-major flattening. -/
def to_1d (c : Int × Int) : Nat := (c.1 * 4 + c.2).toNat

/-- np.unravel_index for the fixed (3, 4) grid. -/
def to_2d (s : Nat) : Int × Int := ((s / 4 : Nat), (s % 4 : Nat))

/-- cells = list(np.ndindex(grid_size)): all 12 cells in row-major order. -/
def cells : List (Int × Int) := (List.range num_states).map to_2d

/-- states = list(range(len(cells))). -/
def states : List Nat := List.range num_states

/-- absorbing_states: the flattened absorbing cells with their rewards. -/
def absorbing_states : List (Nat × ℚ) := absorbing_cells.map (fun p => (to_1d p.1, p.2))

/-- blocked_state: the flattened blocked cell. -/
def blocked_state : Nat := to_1d blocked_cell

/-- state_rewards: baseline everywhere, 0 at the blocked state, the terminal
reward at each absorbing state. -/
def state_rewards : List ℚ :=
  absorbing_states.foldl (fun l p => l.set p.1 p.2)
    ((List.replicate num_states baseline_reward).set blocked_state 0)

/-- Association-list lookup with default, standing in for Python dict indexing. -/
def lookupD {α : Type} (m : List (Char × α)) (k : Char) (d : α) : α :=
  ((m.find? (fun p => p.1 == k)).map Prod.snd).getD d

/-- The action_outcomes dict: for i in range(4), keys actions[(i+j) % 4] for
j in range(4) are zipped with probs and stored under key actions[(i+1) % 4]. -/
def action_outcomes : List (Char × List (Char × ℚ)) :=
  (List.range num_actions).foldl (fun m i =>
    m ++ [(actions.getD ((i + 1) % 4) ' ',
           List.zip ((List.range num_actions).map (fun j => actions.getD ((i + j) % 4) ' ')) probs)]) []

/-- get_new_cell: geometric displacement of the realized move applied to the
source cell; moves that would leave the grid produce out-of-range coordinates
that the caller filters against the cells list. -/
def get_new_cell (state move : Nat) : Int × Int :=
  let cell := to_2d state
  if actions.getD move ' ' = 'U' then (cell.1 - 1, cell.2)
  else if actions.getD move ' ' = 'D' then (cell.1 + 1, cell.2)
  else if actions.getD move ' ' = 'R' then (cell.1, cell.2 + 1)
  else if actions.getD move ' ' = 'L' then (cell.1, cell.2 - 1)
  else cell

/-- A 3-index tensor of rationals, indexed action, source state, destination state. -/
abbrev Tensor : Type := List (List (List ℚ))

/-- np.zeros((num_actions, num_states, num_states)). -/
def zeros3 : Tensor :=
  List.replicate 4 (List.replicate 12 (List.replicate 12 (0 : ℚ)))

/-- Read tensor entry t[a, s, d] (0 outside bounds, as all accesses are in range). -/
def getT (t : Tensor) (a s d : Nat) : ℚ := ((t.getD a []).getD s []).getD d 0

/-- Write tensor entry t[a, s, d] = v in place. -/
def setT (t : Tensor) (a s d : Nat) (v : ℚ) : Tensor :=
  t.set a ((t.getD a []).set s (((t.getD a []).getD s []).set d v))

/-- The well-formedness of a built tensor: 4 action slices of 12 rows of 12 entries. -/
abbrev TensorShaped (t : Tensor) : Prop :=
  t.length = 4 ∧ ∀ r ∈ t, r.length = 12 ∧ ∀ q ∈ r, q.length = 12

/-- The probability p = action_outcomes[actions[action]][actions[outcome]]. -/
def outcome_prob (action outcome : Nat) : ℚ :=
  lookupD (lookupD action_outcomes (actions.getD action ' ') []) (actions.getD outcome ' ') 0

/-- Dict lookup by action character, p = action_outcomes[a][b]. -/
def probOf (a b : Char) : ℚ := lookupD (lookupD action_outcomes a []) b 0

/-- The geometric displacement of each direction, as applied by get_new_cell. -/
def dirVec (c : Char) : Int × Int :=
  if c = 'U' then (-1, 0)
  else if c = 'D' then (1, 0)
  else if c = 'R' then (0, 1)
  else if c = 'L' then (0, -1)
  else (0, 0)

/-- A quarter-turn rotation on grid displacements. -/
def rot90 (v : Int × Int) : Int × Int := (v.2, -v.1)

/-- update_transitions_and_rewards: one builder step for a given
(state, action, outcome) triple, acting on the pair (transitions, rewards). -/
def update_transitions_and_rewards (state action outcome : Nat) (tr : Tensor × Tensor) :
    Tensor × Tensor :=
  if state ∈ absorbing_states.map Prod.fst ∨ state = blocked_state then
    (setT tr.1 action state state 1, tr.2)
  else
    let new_cell := get_new_cell state outcome
    let p := outcome_prob action outcome
    if new_cell ∉ cells ∨ new_cell = blocked_cell then
      (setT tr.1 action state state (getT tr.1 action state state + p),
       setT tr.2 action state state baseline_reward)
    else
      let new_state := to_1d new_cell
      (setT tr.1 action state new_state p,
       setT tr.2 action state new_state (state_rewards.getD new_state 0))

/-- product(actions_, actions_, states): triples (action, outcome, state) in
lexicographic order with action slowest and state fastest. -/
def triples : List (Nat × Nat × Nat) :=
  (List.range num_actions).flatMap (fun a =>
    (List.range num_actions).flatMap (fun o =>
      (List.range num_states).map (fun s => (a, o, s))))

/-- The builder loop: fold update_transitions_and_rewards over all triples,
starting from zero tensors. -/
def built : Tensor × Tensor :=
  triples.foldl (fun tr x => update_transitions_and_rewards x.2.2 x.1 x.2.1 tr)
    (zeros3, zeros3)

/-- The transition tensor produced by the builder loop. -/
def transitions : Tensor := built.1

/-- The reward tensor produced by the builder loop. -/
def rewards : Tensor := built.2

/-! The hand-written Value Iteration engine. -/

/-- skip_states = list(absorbing_states.keys()) + [blocked_state] = [3, 7, 5]. -/
def skip_states : List Nat := absorbing_states.map Prod.fst ++ [blocked_state]

/-- states_to_update: all states not in skip_states, in increasing order. -/
def states_to_update : List Nat := states.filter (fun s => s ∉ skip_states)

/-- The V initialization tail: V[skip_states] = 0 applied to an arbitrary
starting array (the notebook starts from np.random.rand(num_states)). -/
def zero_skips (V : List ℚ) : List ℚ := skip_states.foldl (fun W s => W.set s 0) V

/-- gamma = 0.99. -/
def gamma : ℚ := 99/100

/-- epsilon = 1e-5. -/
def epsilon : ℚ := 1/100000

/-- q_sa = np.sum(transitions[:, state] * (rewards[:, state] + gamma * V), axis=1):
for each action, the expected one-step value of the backup at the given state. -/
def q_sa (T R : Tensor) (g : ℚ) (V : List ℚ) (s : Nat) : List ℚ :=
  (List.range 4).map (fun a =>
    ((List.range 12).map (fun sp => getT T a s sp * (getT R a s sp + g * V.getD sp 0))).sum)

/-- np.max over a vector (the q_sa vector is always nonempty). -/
def npMax : List ℚ → ℚ
  | [] => 0
  | x :: xs => xs.foldl max x

/-- One Value Iteration sweep: for state in states_to_update,
V[state] = np.max(q_sa), updating V in place in increasing state order. -/
def viSweep (T R : Tensor) (g : ℚ) (V : List ℚ) : List ℚ :=
  states_to_update.foldl (fun W s => W.set s (npMax (q_sa T R g W s))) V

/-- Modelled from the claim text, for comparison only: the synchronous backup
sweep that evaluates every q_sa against the frozen pre-sweep value array
instead of the partially updated one. -/
def viSweepSync (T R : Tensor) (g : ℚ) (V : List ℚ) : List ℚ :=
  states_to_update.foldl (fun W s => W.set s (npMax (q_sa T R g V s))) V

/-- np.sum(np.fabs(V - W)): the summed absolute change between two sweeps. -/
def sumAbsDiff (V W : List ℚ) : ℚ := ((V.zip W).map (fun p => |p.1 - p.2|)).sum

/-- The Value Iteration while-loop with explicit fuel: sweep, then stop as soon
as the summed absolute change of the sweep falls below eps, returning the final
V together with the number of sweeps executed; none when fuel runs out first. -/
def viLoop (T R : Tensor) (g eps : ℚ) : Nat → List ℚ → Option (List ℚ × Nat)
  | 0, _ => none
  | n + 1, V =>
    let V2 := viSweep T R g V
    if sumAbsDiff V2 V < eps then some (V2, 1)
    else
      match viLoop T R g eps n V2 with
      | none => none
      | some p => some (p.1, p.2 + 1)

/-- Iterated sweeps: the value array after n sweeps of the Value Iteration loop. -/
def sweepIter : Nat → List ℚ → List ℚ
  | 0, V => V
  | n + 1, V => sweepIter n (viSweep transitions rewards gamma V)

/-- The terminal-reward substitution, for state, reward in absorbing_states.items():
V[state] = reward. -/
def substAbsorbing (V : List ℚ) : List ℚ :=
  absorbing_states.foldl (fun W p => W.set p.1 p.2) V

/-- np.argmax with first-occurrence tie-break, helper walking the tail. -/
def argmaxGo : Nat → Nat → ℚ → List ℚ → Nat
  | _, bi, _, [] => bi
  | i, bi, bv, x :: xs => if bv < x then argmaxGo (i + 1) i x xs else argmaxGo (i + 1) bi bv xs

/-- np.argmax over a vector: index of the first occurrence of the maximum. -/
def npArgmax : List ℚ → Nat
  | [] => 0
  | x :: xs => argmaxGo 1 0 x xs

/-- The action-indexed vector np.sum(transitions * V, 2) at one state: for every
action the V-weighted sum of the transition row out of that state. -/
def qVec (T : Tensor) (V : List ℚ) (s : Nat) : List ℚ :=
  (List.range 4).map (fun a =>
    ((List.range 12).map (fun sp => getT T a s sp * V.getD sp 0)).sum)

/-- policy = np.argmax(np.sum(transitions * V, 2), 0): for every state the
first-occurrence argmax over actions of the V-weighted transition row. -/
def greedyPolicy (T : Tensor) (V : List ℚ) : List Nat :=
  states.map (fun s => npArgmax (qVec T V s))

/-! The hand-written Policy Iteration engine. -/

/-- policy_improvement(value, transitions): writes the terminal rewards into its
value argument in place, then returns the greedy policy against the mutated
array; the pair returned models (mutated argument, returned policy). -/
def policy_improvement (value : List ℚ) (T : Tensor) : List ℚ × List Nat :=
  let value2 := substAbsorbing value
  (value2, greedyPolicy T value2)

/-- np.dot(transitions[action, state], rewards[action, state] + gamma * V). -/
def dotQ (T R : Tensor) (g : ℚ) (V : List ℚ) (a s : Nat) : ℚ :=
  ((List.range 12).map (fun sp => getT T a s sp * (getT R a s sp + g * V.getD sp 0))).sum

/-- One body of the Policy Iteration inner for-loop at a given state:
action = policy[state] reads the module-level policy array produced by the
Value Iteration section (policyG here), V[state] is overwritten with the
evaluation backup for that action, and pi is reassigned to
policy_improvement(V.copy(), transitions), the copy leaving V itself untouched. -/
def piEvalImprove (T R : Tensor) (g : ℚ) (policyG : List Nat)
    (vp : List ℚ × List Nat) (s : Nat) : List ℚ × List Nat :=
  let a := policyG.getD s 0
  let V2 := vp.1.set s (dotQ T R g vp.1 a s)
  (V2, (policy_improvement V2 T).2)

/-- The Policy Iteration inner for-loop over states_to_update. -/
def piInner (T R : Tensor) (g : ℚ) (policyG : List Nat)
    (vp : List ℚ × List Nat) : List ℚ × List Nat :=
  states_to_update.foldl (piEvalImprove T R g policyG) vp

/-- The Policy Iteration while-loop with explicit fuel: run the inner loop, stop
once the pi array comes out unchanged, returning final V, final pi and the
number of iterations; none when fuel runs out first. -/
def piLoop (T R : Tensor) (g : ℚ) (policyG : List Nat) :
    Nat → List ℚ → List Nat → Option (List ℚ × List Nat × Nat)
  | 0, _, _ => none
  | n + 1, V, piA =>
    let vp := piInner T R g policyG (V, piA)
    if vp.2 = piA then some (vp.1, vp.2, 1)
    else
      match piLoop T R g policyG n vp.1 vp.2 with
      | none => none
      | some r => some (r.1, r.2.1, r.2.2 + 1)

/-! Concrete runs of the two engines, used by the comparison claims. Both value
arrays start from the same concrete initialization: every entry 1/2 (a possible
draw of np.random.rand) with the skip states then zeroed, exactly as the
notebook initializes before each solver. -/

/-- A concrete initial value array: every entry 1/2. -/
def V0run : List ℚ := List.replicate 12 (1/2)

/-- A concrete initial policy array for Policy Iteration: every entry action 1. -/
def pi0run : List Nat := List.replicate 12 1

/-- The Value Iteration run on the built tensors with gamma and epsilon. -/
def viRun : Option (List ℚ × Nat) :=
  viLoop transitions rewards gamma epsilon 100 (zero_skips V0run)

/-- The value array produced by the Value Iteration run. -/
def viV : List ℚ := (viRun.map Prod.fst).getD []

/-- The module-level policy array left behind by the Value Iteration section:
terminal rewards are written into V, then the greedy policy is extracted. -/
def policyRun : List Nat := greedyPolicy transitions (substAbsorbing viV)

/-- The Policy Iteration run on the built tensors; its evaluation step reads
policyRun, the way the notebook code reads the global policy array. -/
def piRun : Option (List ℚ × List Nat × Nat) :=
  piLoop transitions rewards gamma policyRun 100 (zero_skips V0run) pi0run

/-- The value array produced by the Policy Iteration run. -/
def piV : List ℚ := (piRun.map (fun r => r.1)).getD []

/-- A value array that is 1 at state 1 and 0 elsewhere, a probe input for the
evaluation-step analysis. -/
def Vone : List ℚ := (List.replicate 12 0).set 1 1

/-- A maintained pi array assigning action 0 to every state. -/
def piZero : List Nat := List.replicate 12 0

/-! Helper lemmas about list reads and writes. -/

/-- Reading back an in-range write. -/
lemma getD_set_self {α : Type} (l : List α) (n : Nat) (x d : α) (h : n < l.length) :
    (l.set n x).getD n d = x := by
  rw [List.getD_eq_getD_get?, List.get?_eq_getElem?, List.getElem?_set_self (by simpa using h),
    Option.getD_some]

/-- Reading an index other than the one written. -/
lemma getD_set_ne {α : Type} (l : List α) (m n : Nat) (x d : α) (h : m ≠ n) :
    (l.set m x).getD n d = l.getD n d := by
  rw [List.getD_eq_getD_get?, List.get?_eq_getElem?, List.getElem?_set_ne h,
    ← List.get?_eq_getElem?, ← List.getD_eq_getD_get?]

/-- A fold of in-place writes preserves length. -/
lemma length_foldl_set (f : List ℚ → Nat → ℚ) :
    ∀ (l : List Nat) (V : List ℚ),
      (l.foldl (fun W s => W.set s (f W s)) V).length = V.length := by
  intro l
  induction l with
  | nil => intro V; rfl
  | cons t rest ih => intro V; rw [List.foldl_cons, ih, List.length_set]

/-- A fold of in-place writes leaves untouched indices unchanged. -/
lemma foldl_set_getD_not_mem (f : List ℚ → Nat → ℚ) :
    ∀ (l : List Nat) (V : List ℚ) (s : Nat), s ∉ l →
      (l.foldl (fun W t => W.set t (f W t)) V).getD s 0 = V.getD s 0 := by
  intro l
  induction l with
  | nil => intro V s _; rfl
  | cons t rest ih =>
    intro V s hs
    rw [List.foldl_cons, ih _ s (fun h => hs (List.mem_cons_of_mem _ h)),
      getD_set_ne _ _ _ _ _ (ne_of_mem_of_not_mem (List.mem_cons_self t rest) hs)]

/-- In a fold of in-place writes over pairwise distinct in-range indices, the
entry at the i-th index equals the write made at step i, computed from the fold
over the earlier indices: later steps of the same fold read earlier writes. -/
lemma foldl_set_getD_nodup (f : List ℚ → Nat → ℚ) :
    ∀ (l : List Nat) (V : List ℚ), l.Nodup → (∀ t ∈ l, t < V.length) →
      ∀ (i : Nat), i < l.length →
        (l.foldl (fun W s => W.set s (f W s)) V).getD (l.getD i 0) 0
          = f ((l.take i).foldl (fun W s => W.set s (f W s)) V) (l.getD i 0) := by
  intro l
  induction l with
  | nil => intro V _ _ i hi; exact absurd hi (by simp)
  | cons t rest ih =>
    intro V hnd hlt i hi
    match i with
    | 0 =>
      have ht : t ∉ rest := (List.nodup_cons.mp hnd).1
      rw [List.foldl_cons]
      show (rest.foldl _ (V.set t (f V t))).getD t 0 = f V t
      rw [foldl_set_getD_not_mem f rest _ t ht,
        getD_set_self _ _ _ _ (hlt t (List.mem_cons_self t rest))]
    | i + 1 =>
      have hnd2 : rest.Nodup := (List.nodup_cons.mp hnd).2
      have hlt2 : ∀ s ∈ rest, s < (V.set t (f V t)).length := by
        intro s hsr; rw [List.length_set]; exact hlt s (List.mem_cons_of_mem _ hsr)
      have hi2 : i < rest.length := Nat.lt_of_succ_lt_succ hi
      rw [List.foldl_cons]
      show (rest.foldl _ (V.set t (f V t))).getD (rest.getD i 0) 0 = _
      rw [ih (V.set t (f V t)) hnd2 hlt2 i hi2]
      rfl

/-- Reading a mapped range at an in-range index. -/
lemma getD_map_range (f : Nat → ℚ) (n s : Nat) (h : s < n) :
    ((List.range n).map f).getD s 0 = f s := by
  rw [List.getD_eq_getElem _ _ (by simpa using h), List.getElem_map, List.getElem_range]

/-- Reading a mapped range of naturals at an in-range index. -/
lemma getD_map_range_nat (f : Nat → Nat) (n s : Nat) (h : s < n) :
    ((List.range n).map f).getD s 0 = f s := by
  rw [List.getD_eq_getElem _ _ (by simpa using h), List.getElem_map, List.getElem_range]

/-- Setting all indices of a list to zero makes every listed in-range index read zero. -/
lemma foldl_setzero_getD_mem :
    ∀ (l : List Nat) (V : List ℚ), (∀ t ∈ l, t < V.length) →
      ∀ s ∈ l, (l.foldl (fun W t => W.set t 0) V).getD s 0 = 0 := by
  intro l
  induction l with
  | nil => intro V _ s hs; exact absurd hs (List.not_mem_nil s)
  | cons t rest ih =>
    intro V hlt s hs
    rw [List.foldl_cons]
    by_cases hsr : s ∈ rest
    · exact ih (V.set t 0)
        (fun u hu => by rw [List.length_set]; exact hlt u (List.mem_cons_of_mem _ hu)) s hsr
    · have hst : s = t := by
        rcases List.mem_cons.mp hs with h | h
        · exact h
        · exact absurd h hsr
      subst hst
      show (rest.foldl (fun W t => W.set t ((fun _ _ => (0 : ℚ)) W t)) (V.set s 0)).getD s 0 = 0
      rw [foldl_set_getD_not_mem (fun _ _ => (0 : ℚ)) rest _ s hsr,
        getD_set_self _ _ _ _ (hlt s (List.mem_cons_self s rest))]

/-- The summed absolute change is nonnegative. -/
lemma sumAbsDiff_nonneg (V W : List ℚ) : 0 ≤ sumAbsDiff V W := by
  apply List.sum_nonneg
  intro x hx
  rcases List.mem_map.mp hx with ⟨p, _, rfl⟩
  exact abs_nonneg _

/-- The iteration count reported by the Value Iteration loop is positive. -/
lemma viLoop_count_pos (T R : Tensor) (g eps : ℚ) :
    ∀ (n : Nat) (V Vf : List ℚ) (k : Nat),
      viLoop T R g eps n V = some (Vf, k) → 1 ≤ k := by
  intro n
  induction n with
  | zero => intro V Vf k h; exact absurd h (by simp [viLoop])
  | succ m ih =>
    intro V Vf k h
    simp only [viLoop] at h
    by_cases hc : sumAbsDiff (viSweep T R g V) V < eps
    · rw [if_pos hc] at h
      cases h
      exact le_refl 1
    · rw [if_neg hc] at h
      cases hrec : viLoop T R g eps m (viSweep T R g V) with
      | none => rw [hrec] at h; cases h
      | some p => rw [hrec] at h; cases h; omega

/-- With a non-positive threshold the Value Iteration loop never stops. -/
lemma viLoop_none_of_nonpos (T R : Tensor) (g eps : ℚ) (he : eps ≤ 0) :
    ∀ (m : Nat) (V : List ℚ), viLoop T R g eps m V = none := by
  intro m
  induction m with
  | zero => intro V; rfl
  | succ k ih =>
    intro V
    have hc : ¬ sumAbsDiff (viSweep T R g V) V < eps :=
      fun h => absurd (lt_of_lt_of_le h he) (not_lt.mpr (sumAbsDiff_nonneg _ _))
    simp only [viLoop, if_neg hc, ih (viSweep T R g V)]

/-- The value array returned by the Value Iteration loop is an iterated sweep
of its input. -/
lemma viLoop_result_is_sweepIter (eps : ℚ) :
    ∀ (n : Nat) (V Vf : List ℚ) (k : Nat),
      viLoop transitions rewards gamma eps n V = some (Vf, k) →
      ∃ m, Vf = sweepIter m V := by
  intro n
  induction n with
  | zero => intro V Vf k h; exact absurd h (by simp [viLoop])
  | succ m2 ih =>
    intro V Vf k h
    simp only [viLoop] at h
    by_cases hc : sumAbsDiff (viSweep transitions rewards gamma V) V < eps
    · rw [if_pos hc] at h
      cases h
      exact ⟨1, rfl⟩
    · rw [if_neg hc] at h
      cases hrec : viLoop transitions rewards gamma eps m2 (viSweep transitions rewards gamma V) with
      | none => rw [hrec] at h; cases h
      | some p =>
        rw [hrec] at h
        cases h
        rcases ih _ p.1 p.2 hrec with ⟨m, hm⟩
        exact ⟨m + 1, hm⟩

/-- A sweep never changes the value entries of the skip states. -/
lemma viSweep_preserves_skip (V : List ℚ) (s : Nat) (hs : s ∈ skip_states) :
    (viSweep transitions rewards gamma V).getD s 0 = V.getD s 0 := by
  have hnot : s ∉ states_to_update := by
    intro hmem
    have := (List.mem_filter.mp hmem).2
    simp only [decide_not] at this
    exact absurd hs (by simpa using this)
  exact foldl_set_getD_not_mem _ states_to_update V s hnot

/-- Iterated sweeps never change the value entries of the skip states. -/
lemma sweepIter_preserves_skip :
    ∀ (n : Nat) (V : List ℚ) (s : Nat), s ∈ skip_states →
      (sweepIter n V).getD s 0 = V.getD s 0 := by
  intro n
  induction n with
  | zero => intro V s _; rfl
  | succ m ih =>
    intro V s hs
    show (sweepIter m (viSweep transitions rewards gamma V)).getD s 0 = V.getD s 0
    rw [ih _ s hs, viSweep_preserves_skip V s hs]

/-- Indices bound check for shaped tensors. -/
lemma shaped_bounds (t : Tensor) (h : TensorShaped t) (a s : Nat)
    (ha : a < 4) (hs : s < 12) :
    a < t.length ∧ s < (t.getD a []).length ∧
      ∀ d, d < 12 → d < ((t.getD a []).getD s []).length := by
  have h1 : a < t.length := by rw [h.1]; exact ha
  have hrow : t.getD a [] ∈ t := by
    rw [List.getD_eq_getElem _ _ h1]
    exact List.getElem_mem h1
  have h2 : s < (t.getD a []).length := by rw [(h.2 _ hrow).1]; exact hs
  have hsub : (t.getD a []).getD s [] ∈ t.getD a [] := by
    rw [List.getD_eq_getElem _ _ h2]
    exact List.getElem_mem h2
  refine ⟨h1, h2, fun d hd => ?_⟩
  rw [(h.2 _ hrow).2 _ hsub]
  exact hd

/-- Reading back a tensor write at the written triple. -/
lemma getT_setT_self (t : Tensor) (a s d : Nat) (v : ℚ)
    (h1 : a < t.length) (h2 : s < (t.getD a []).length)
    (h3 : d < ((t.getD a []).getD s []).length) :
    getT (setT t a s d v) a s d = v := by
  unfold getT setT
  rw [getD_set_self _ _ _ _ h1, getD_set_self _ _ _ _ h2, getD_set_self _ _ _ _ h3]

/-- Flattening inverts unflattening on the 12 states. -/
lemma to_1d_to_2d : ∀ k, k < 12 → to_1d (to_2d k) = k := by decide

/-- The range-4 map unfolds to a four-element vector. -/
lemma map_range4 (f : Nat → ℚ) : (List.range 4).map f = [f 0, f 1, f 2, f 3] := rfl

/-- First-occurrence argmax specification on four-element vectors: the returned
index is in range, attains the maximum, and strictly exceeds every earlier entry. -/
lemma npArgmax_spec4 (q0 q1 q2 q3 : ℚ) :
    npArgmax [q0, q1, q2, q3] < 4
    ∧ (∀ j, j < 4 → [q0, q1, q2, q3].getD j 0 ≤ [q0, q1, q2, q3].getD (npArgmax [q0, q1, q2, q3]) 0)
    ∧ (∀ j, j < npArgmax [q0, q1, q2, q3] →
        [q0, q1, q2, q3].getD j 0 < [q0, q1, q2, q3].getD (npArgmax [q0, q1, q2, q3]) 0) := by
  simp only [npArgmax, argmaxGo]
  split_ifs <;>
    refine ⟨by norm_num, fun j hj => ?_, fun j hj => ?_⟩ <;>
    interval_cases j <;>
    simp_all [List.getD] <;>
    linarith

/-! Claim theorems. -/

/-- C3: after the model-build loop completes over all (action, outcome, state)
triples, for every action and every source state, including the blocked and the
absorbing states, the destination-state probabilities of the constructed
transition tensor sum to exactly 1. -/
theorem C3_transition_rows_sum_to_one :
    ∀ a, a < num_actions → ∀ s, s < num_states →
      ((List.range 12).map (getT transitions a s)).sum = 1 := by decide

/-- Witness for C3 at action 0 and state 0. -/
theorem C3_witness : ((List.range 12).map (getT transitions 0 0)).sum = 1 :=
  C3_transition_rows_sum_to_one 0 (by decide) 0 (by decide)

/-- C6: for every action, if the source state is the blocked state or an
absorbing state then the built tensor carries self-transition probability 1 and
a zero reward row out of that state. -/
theorem C6_blocked_absorbing_rows (a s : Nat) (ha : a < num_actions)
    (hs : s ∈ absorbing_states.map Prod.fst ∨ s = blocked_state) :
    getT transitions a s s = 1 ∧ ∀ d, d < num_states → getT rewards a s d = 0 := by
  have hall : ∀ a2, a2 < 4 → ∀ s2, s2 < 12 →
      ((s2 ∈ absorbing_states.map Prod.fst ∨ s2 = blocked_state) →
        getT transitions a2 s2 s2 = 1 ∧ ∀ d, d < 12 → getT rewards a2 s2 d = 0) := by decide
  have hs12 : s < 12 := by
    rcases hs with h | h
    · have : s = 3 ∨ s = 7 := by
        simpa [absorbing_states, absorbing_cells, to_1d] using h
      rcases this with h2 | h2 <;> omega
    · rw [h]; decide
  exact hall a ha s hs12 hs

/-- Witness for C6 at action 0 and the blocked state 5. -/
theorem C6_witness :
    getT transitions 0 5 5 = 1 ∧ ∀ d, d < num_states → getT rewards 0 5 d = 0 :=
  C6_blocked_absorbing_rows 0 5 (by decide) (Or.inr (by decide))

/-- C7: the constructed action_outcomes mapping has an entry for each of the
four actions; for each action it assigns probability 0.8 to the intended
direction, 0.1 to each of the two rotationally adjacent directions, and 0 to
the reverse direction. -/
theorem C7_action_outcome_noise :
    ∀ i, i < num_actions →
      (action_outcomes.find? (fun p => p.1 == actions.getD i ' ')).isSome = true
      ∧ probOf (actions.getD i ' ') (actions.getD i ' ') = 8/10
      ∧ ∀ j, j < num_actions →
          ((dirVec (actions.getD j ' ') = rot90 (dirVec (actions.getD i ' ')) ∨
            dirVec (actions.getD j ' ') = rot90 (rot90 (rot90 (dirVec (actions.getD i ' '))))) →
              probOf (actions.getD i ' ') (actions.getD j ' ') = 1/10)
          ∧ (dirVec (actions.getD j ' ') = rot90 (rot90 (dirVec (actions.getD i ' '))) →
              probOf (actions.getD i ' ') (actions.getD j ' ') = 0) := by decide

/-- Witness for C7: the intended direction of action U has probability 0.8. -/
theorem C7_witness : probOf 'U' 'U' = 8/10 :=
  (C7_action_outcome_noise 1 (by decide)).2.1

/-- C5: the Value Iteration loop stops after a sweep exactly when the summed
absolute change of that sweep falls below epsilon, and for every non-positive
epsilon the loop never terminates however much fuel it is given. -/
theorem C5_vi_stopping_rule (T R : Tensor) (g eps : ℚ) (V : List ℚ) (n : Nat) :
    (viLoop T R g eps (n + 1) V = some (viSweep T R g V, 1)
        ↔ sumAbsDiff (viSweep T R g V) V < eps)
    ∧ (eps ≤ 0 → ∀ m, viLoop T R g eps m V = none) := by
  constructor
  · constructor
    · intro h
      by_contra hc
      simp only [viLoop, if_neg hc] at h
      cases hrec : viLoop T R g eps n (viSweep T R g V) with
      | none => rw [hrec] at h; cases h
      | some p =>
        rw [hrec] at h
        have hk := viLoop_count_pos T R g eps n (viSweep T R g V) p.1 p.2 hrec
        have h2 : p.2 + 1 = 1 := congrArg Prod.snd (Option.some.inj h)
        omega
    · intro hc
      simp only [viLoop, if_pos hc]
  · intro he m
    exact viLoop_none_of_nonpos T R g eps he m V

/-- Witness for C5: with threshold 0 the loop returns none on fuel 3. -/
theorem C5_witness : viLoop transitions rewards gamma 0 3 (zero_skips V0run) = none :=
  (C5_vi_stopping_rule transitions rewards gamma 0 (zero_skips V0run) 2).2 (le_refl 0) 3

/-- C8: in the Value Iteration loop the value entries at the blocked state and
the absorbing states are zeroed at initialization and no sweep ever writes
them: after any number of sweeps they are still exactly 0, and any value array
the loop returns carries 0 there. -/
theorem C8_skip_states_stay_zero (V0 : List ℚ) (h : V0.length = 12)
    (s : Nat) (hs : s ∈ skip_states) :
    (∀ n, (sweepIter n (zero_skips V0)).getD s 0 = 0)
    ∧ ∀ (eps : ℚ) (fuel : Nat) (Vf : List ℚ) (k : Nat),
        viLoop transitions rewards gamma eps fuel (zero_skips V0) = some (Vf, k) →
        Vf.getD s 0 = 0 := by
  have hbound : ∀ t ∈ skip_states, t < 12 := by decide
  have hbase : (zero_skips V0).getD s 0 = 0 := by
    apply foldl_setzero_getD_mem skip_states V0 _ s hs
    intro t ht
    rw [h]
    exact hbound t ht
  have hiter : ∀ n, (sweepIter n (zero_skips V0)).getD s 0 = 0 := by
    intro n
    rw [sweepIter_preserves_skip n _ s hs, hbase]
  refine ⟨hiter, fun eps fuel Vf k hrun => ?_⟩
  rcases viLoop_result_is_sweepIter eps fuel _ Vf k hrun with ⟨m, rfl⟩
  exact hiter m

/-- Witness for C8 after two sweeps at absorbing state 3. -/
theorem C8_witness : (sweepIter 2 (zero_skips (List.replicate 12 (1/2)))).getD 3 0 = 0 :=
  (C8_skip_states_stay_zero (List.replicate 12 (1/2)) (by decide) 3 (by decide)).1 2

/-- C4: for a non-blocked, non-absorbing source state and an (action, outcome)
pair whose destination leaves the grid or hits the blocked cell, the builder
adds the outcome probability onto the existing self-transition entry rather
than overwriting it, writes the baseline reward on the self-transition, and
every in-grid destination flattens to a state index below num_states. -/
theorem C4_bounce_accumulates_self_transition (T R : Tensor)
    (hT : TensorShaped T) (hR : TensorShaped R)
    (s a o : Nat) (ha : a < num_actions) (hs : s < num_states)
    (hsrc : ¬ (s ∈ absorbing_states.map Prod.fst ∨ s = blocked_state))
    (hb : get_new_cell s o ∉ cells ∨ get_new_cell s o = blocked_cell) :
    getT (update_transitions_and_rewards s a o (T, R)).1 a s s
        = getT T a s s + outcome_prob a o
    ∧ getT (update_transitions_and_rewards s a o (T, R)).2 a s s = baseline_reward
    ∧ ∀ s2 o2 : Nat, get_new_cell s2 o2 ∈ cells → to_1d (get_new_cell s2 o2) < num_states := by
  obtain ⟨hT1, hT2, hT3⟩ := shaped_bounds T hT a s ha hs
  obtain ⟨hR1, hR2, hR3⟩ := shaped_bounds R hR a s ha hs
  refine ⟨?_, ?_, ?_⟩
  · simp only [update_transitions_and_rewards, if_neg hsrc, if_pos hb]
    exact getT_setT_self T a s s _ hT1 hT2 (hT3 s hs)
  · simp only [update_transitions_and_rewards, if_neg hsrc, if_pos hb]
    exact getT_setT_self R a s s _ hR1 hR2 (hR3 s hs)
  · intro s2 o2 hmem
    rcases List.mem_map.mp hmem with ⟨k, hk, hkeq⟩
    rw [← hkeq, to_1d_to_2d k (List.mem_range.mp hk)]
    exact List.mem_range.mp hk

/-- Witness for C4: action 0 with realized outcome U at corner state 0 bounces
off the top wall onto the self-transition of the zero tensors. -/
theorem C4_witness :
    getT (update_transitions_and_rewards 0 0 1 (zeros3, zeros3)).1 0 0 0
        = getT zeros3 0 0 0 + outcome_prob 0 1
    ∧ getT (update_transitions_and_rewards 0 0 1 (zeros3, zeros3)).2 0 0 0 = baseline_reward
    ∧ ∀ s2 o2 : Nat, get_new_cell s2 o2 ∈ cells → to_1d (get_new_cell s2 o2) < num_states :=
  C4_bounce_accumulates_self_transition zeros3 zeros3 (by decide) (by decide)
    0 0 1 (by decide) (by decide) (by decide) (by decide)

/-- C9: the policy-improvement step returns, for each state, the
first-occurrence argmax over actions of the transition-weighted sum of the
value array with terminal rewards substituted at the absorbing states, and the
in-loop call applies the substitution only to a copy: apart from the single
evaluation write, the V array of the loop is unchanged. -/
theorem C9_policy_improvement_greedy_frame (value V1 : List ℚ)
    (piA policyG : List Nat) (s : Nat)
    (hval : value.length = 12) (hs : s < num_states) :
    ((policy_improvement value transitions).2.getD s 0
        = npArgmax (qVec transitions (substAbsorbing value) s))
    ∧ (∀ t, t < num_states →
        (substAbsorbing value).getD t 0
          = if t = 3 then 1 else if t = 7 then -1 else value.getD t 0)
    ∧ (npArgmax (qVec transitions (substAbsorbing value) s) < 4
       ∧ (∀ a2, a2 < 4 →
            ((List.range 12).map (fun sp =>
                getT transitions a2 s sp * (substAbsorbing value).getD sp 0)).sum
              ≤ ((List.range 12).map (fun sp =>
                getT transitions (npArgmax (qVec transitions (substAbsorbing value) s)) s sp
                  * (substAbsorbing value).getD sp 0)).sum)
       ∧ (∀ a2, a2 < npArgmax (qVec transitions (substAbsorbing value) s) →
            ((List.range 12).map (fun sp =>
                getT transitions a2 s sp * (substAbsorbing value).getD sp 0)).sum
              < ((List.range 12).map (fun sp =>
                getT transitions (npArgmax (qVec transitions (substAbsorbing value) s)) s sp
                  * (substAbsorbing value).getD sp 0)).sum))
    ∧ (∀ s2 ∈ states_to_update, ∀ t, t < num_states → t ≠ s2 →
        (piEvalImprove transitions rewards gamma policyG (V1, piA) s2).1.getD t 0
          = V1.getD t 0) := by
  refine ⟨?_, ?_, ?_, ?_⟩
  · show (greedyPolicy transitions (substAbsorbing value)).getD s 0 = _
    simp only [greedyPolicy, states]
    exact getD_map_range_nat _ 12 s hs
  · intro t ht
    show ((value.set 3 1).set 7 (-1)).getD t 0 = _
    by_cases h7 : t = 7
    · subst h7
      rw [getD_set_self _ _ _ _ (by rw [List.length_set, hval]; norm_num)]
      norm_num
    · rw [getD_set_ne _ _ _ _ _ (Ne.symm h7)]
      by_cases h3 : t = 3
      · subst h3
        rw [getD_set_self _ _ _ _ (by rw [hval]; norm_num)]
        norm_num
      · rw [getD_set_ne _ _ _ _ _ (Ne.symm h3), if_neg h3, if_neg h7]
  · have hq : qVec transitions (substAbsorbing value) s
        = [((List.range 12).map (fun sp =>
              getT transitions 0 s sp * (substAbsorbing value).getD sp 0)).sum,
           ((List.range 12).map (fun sp =>
              getT transitions 1 s sp * (substAbsorbing value).getD sp 0)).sum,
           ((List.range 12).map (fun sp =>
              getT transitions 2 s sp * (substAbsorbing value).getD sp 0)).sum,
           ((List.range 12).map (fun sp =>
              getT transitions 3 s sp * (substAbsorbing value).getD sp 0)).sum] :=
      map_range4 _
    obtain ⟨h1, h2, h3⟩ := npArgmax_spec4
      (((List.range 12).map (fun sp =>
          getT transitions 0 s sp * (substAbsorbing value).getD sp 0)).sum)
      (((List.range 12).map (fun sp =>
          getT transitions 1 s sp * (substAbsorbing value).getD sp 0)).sum)
      (((List.range 12).map (fun sp =>
          getT transitions 2 s sp * (substAbsorbing value).getD sp 0)).sum)
      (((List.range 12).map (fun sp =>
          getT transitions 3 s sp * (substAbsorbing value).getD sp 0)).sum)
    rw [hq]
    refine ⟨h1, ?_, ?_⟩
    · intro a2 ha2
      have h5 := h2 a2 ha2
      set m := npArgmax [((List.range 12).map (fun sp =>
          getT transitions 0 s sp * (substAbsorbing value).getD sp 0)).sum,
        ((List.range 12).map (fun sp =>
          getT transitions 1 s sp * (substAbsorbing value).getD sp 0)).sum,
        ((List.range 12).map (fun sp =>
          getT transitions 2 s sp * (substAbsorbing value).getD sp 0)).sum,
        ((List.range 12).map (fun sp =>
          getT transitions 3 s sp * (substAbsorbing value).getD sp 0)).sum] with hm
      interval_cases m <;> interval_cases a2 <;> simpa using h5
    · intro a2 ha2
      have h5 := h3 a2 ha2
      set m := npArgmax [((List.range 12).map (fun sp =>
          getT transitions 0 s sp * (substAbsorbing value).getD sp 0)).sum,
        ((List.range 12).map (fun sp =>
          getT transitions 1 s sp * (substAbsorbing value).getD sp 0)).sum,
        ((List.range 12).map (fun sp =>
          getT transitions 2 s sp * (substAbsorbing value).getD sp 0)).sum,
        ((List.range 12).map (fun sp =>
          getT transitions 3 s sp * (substAbsorbing value).getD sp 0)).sum] with hm
      interval_cases m <;> interval_cases a2 <;> simpa using h5
  · intro s2 _ t ht hts
    show ((V1.set s2 (dotQ transitions rewards gamma V1 (policyG.getD s2 0) s2)).getD t 0)
        = V1.getD t 0
    exact getD_set_ne _ _ _ _ _ (Ne.symm hts)

/-- Witness for C9: the substitution writes the +1 terminal reward at state 3. -/
theorem C9_witness : (substAbsorbing (List.replicate 12 0)).getD 3 0 = 1 := by
  have h := (C9_policy_improvement_greedy_frame (List.replicate 12 0)
    (List.replicate 12 0) piZero piZero 0 (by decide) (by decide)).2.1 3 (by decide)
  simpa using h

/-- C10: within one Value Iteration sweep the states are updated in place in
increasing state-index order, so the backup of the i-th updated state reads the
array already holding the writes of the earlier states of the same sweep, which
differs from the synchronous backup against the frozen pre-sweep array; the
stopping test of the loop compares the end-of-sweep array against the snapshot
taken before the sweep. -/
theorem C10_gauss_seidel_sweep :
    (∀ i, i < states_to_update.length → ∀ j, j < states_to_update.length →
      i < j → states_to_update.getD i 0 < states_to_update.getD j 0)
    ∧ (∀ (V : List ℚ), V.length = 12 → ∀ i, i < states_to_update.length →
        (viSweep transitions rewards gamma V).getD (states_to_update.getD i 0) 0
          = npMax (q_sa transitions rewards gamma
              ((states_to_update.take i).foldl
                (fun W s => W.set s (npMax (q_sa transitions rewards gamma W s))) V)
              (states_to_update.getD i 0)))
    ∧ viSweep transitions rewards gamma (zero_skips V0run)
        ≠ viSweepSync transitions rewards gamma (zero_skips V0run)
    ∧ (∀ (eps : ℚ) (n : Nat) (V : List ℚ),
        viLoop transitions rewards gamma eps (n + 1) V
          = if sumAbsDiff (viSweep transitions rewards gamma V) V < eps
            then some (viSweep transitions rewards gamma V, 1)
            else Option.map (fun p => (p.1, p.2 + 1))
              (viLoop transitions rewards gamma eps n (viSweep transitions rewards gamma V))) := by
  refine ⟨by decide, ?_, by decide, ?_⟩
  · intro V hV i hi
    have hnd : states_to_update.Nodup := by decide
    have hlt : ∀ t ∈ states_to_update, t < V.length := by
      intro t htt
      rw [hV]
      exact (by decide : ∀ t ∈ states_to_update, t < 12) t htt
    exact foldl_set_getD_nodup (fun W s => npMax (q_sa transitions rewards gamma W s))
      states_to_update V hnd hlt i hi
  · intro eps n V
    by_cases hc : sumAbsDiff (viSweep transitions rewards gamma V) V < eps
    · simp only [viLoop, if_pos hc]
    · simp only [viLoop, if_neg hc]
      cases hrec : viLoop transitions rewards gamma eps n (viSweep transitions rewards gamma V) with
      | none => rfl
      | some p => rfl

/-- Witness for C10 at the second updated state of a concrete sweep. -/
theorem C10_witness :
    (viSweep transitions rewards gamma (zero_skips V0run)).getD (states_to_update.getD 1 0) 0
      = npMax (q_sa transitions rewards gamma
          ((states_to_update.take 1).foldl
            (fun W s => W.set s (npMax (q_sa transitions rewards gamma W s)))
            (zero_skips V0run))
          (states_to_update.getD 1 0)) :=
  C10_gauss_seidel_sweep.2.1 (zero_skips V0run) (by decide) 1 (by decide)

/-- C1: the evaluation update of the Policy Iteration loop reads the
module-level policy array left behind by the Value Iteration section, not the
pi array the loop itself maintains. At state 0 of a loop configuration where
the two arrays disagree, the written value equals the expected-value backup
under the global array entry (action 2, value 193/250) and differs from the
backup under the maintained pi entry (action 0, value -1/50). -/
theorem C1_eval_reads_global_policy :
    policyRun.getD 0 0 = 2
    ∧ piZero.getD 0 0 = 0
    ∧ (piEvalImprove transitions rewards gamma policyRun (Vone, piZero) 0).1.getD 0 0
        = dotQ transitions rewards gamma Vone (policyRun.getD 0 0) 0
    ∧ dotQ transitions rewards gamma Vone (policyRun.getD 0 0) 0 = 193/250
    ∧ dotQ transitions rewards gamma Vone (piZero.getD 0 0) 0 = -(1/50)
    ∧ (piEvalImprove transitions rewards gamma policyRun (Vone, piZero) 0).1.getD 0 0
        ≠ dotQ transitions rewards gamma Vone (piZero.getD 0 0) 0 := by decide

/-- C2 counterexample: running the two engines on the same built tensors with
the same gamma, from the same admissible initialization, the Value Iteration
loop stops after 17 sweeps and the Policy Iteration loop after 5 iterations,
and at the non-terminal, non-blocked state 6 the two value functions differ by
more than the claimed tolerance of 1/1000. -/
theorem C2_counterexample :
    viRun.map Prod.snd = some 17
    ∧ piRun.map (fun r => r.2.2) = some 5
    ∧ 6 ∈ states_to_update
    ∧ ¬ |viV.getD 6 0 - piV.getD 6 0| ≤ 1/1000 := by decide

/-- C2 amended: the two engines need not agree within 1e-3; both runs
terminate, and there is a non-terminal, non-blocked state at which the two
value functions differ by more than 1/1000, because the Policy Iteration loop
stops as soon as its policy array stabilizes, before its value array has
converged. -/
theorem C2_amended_gap :
    ∃ s, s ∈ states_to_update ∧ viRun.isSome = true ∧ piRun.isSome = true
      ∧ 1/1000 < |viV.getD s 0 - piV.getD s 0| :=
  ⟨6, by decide⟩

end GridWorld
